import Mathlib

/-!
Verification of the tour signaling server (`src/server.js`).

The repository file contains two concatenated historical variants of the
server, separated by a marker at line 254:

* Variant A (lines 1-253): `tours : tourId -> { guide : ws | null,
  participants : Set<ws> }`, `connections : ws -> { userId, tourId, role }`,
  role-based broadcast relaying (`relayToParticipants`, `relayToGuide`,
  `relayIceCandidate`), an explicit `leave-tour` message, a `ping`/`pong`
  handler, and tour deletion only when a tour has neither guide nor
  participants.

* Variant B (lines 254-419): `tours : tourId -> { guide : { ws, userId } |
  null, participants : Map<userId, ws> }`, `connections : ws ->
  { userId, tourId }`, a single targeted `relay` keyed by the message's
  `tourId`/`targetId` fields, immediate tour deletion when the guide
  leaves, and a message handler that drops every frame from a connection
  that has no registry entry.

Both variants are embedded shallowly below.  WebSocket handles are `Nat`;
every caller-supplied string field is `Option String` (JS `undefined`
corresponds to `none`, and JS `===` on `string | undefined` corresponds to
decidable equality on `Option String`).  Outbound `send` calls are recorded
in an append-only log of `(handle, frame)` pairs; the JS code never
inspects the return value of `send`, so the state transition functions do
not depend on transport success.
-/

abbrev OStr := Option String

/-! ### Association lists (JS `Map` semantics) -/

def aget {κ α : Type} [DecidableEq κ] : List (κ × α) → κ → Option α
  | [], _ => none
  | e :: rest, k => if e.1 = k then some e.2 else aget rest k

def aset {κ α : Type} [DecidableEq κ] : List (κ × α) → κ → α → List (κ × α)
  | [], k, v => [(k, v)]
  | e :: rest, k, v => if e.1 = k then (k, v) :: rest else e :: aset rest k v

def adel {κ α : Type} [DecidableEq κ] : List (κ × α) → κ → List (κ × α)
  | [], _ => []
  | e :: rest, k => if e.1 = k then adel rest k else e :: adel rest k

theorem aget_aset_self {κ α : Type} [DecidableEq κ] (l : List (κ × α)) (k : κ) (v : α) :
    aget (aset l k v) k = some v := by
  induction l with
  | nil => simp [aset, aget]
  | cons e rest ih =>
    by_cases h : e.1 = k <;> simp [aset, aget, h, ih]

theorem aget_aset_ne {κ α : Type} [DecidableEq κ] (l : List (κ × α)) (k k' : κ) (v : α)
    (h : k' ≠ k) : aget (aset l k v) k' = aget l k' := by
  have hne : ¬(k = k') := fun hk => h hk.symm
  induction l with
  | nil => simp [aset, aget, hne]
  | cons e rest ih =>
    by_cases he : e.1 = k
    · simp [aset, aget, he, hne]
    · by_cases he' : e.1 = k' <;> simp [aset, aget, he, he', ih, h]

theorem aget_adel_self {κ α : Type} [DecidableEq κ] (l : List (κ × α)) (k : κ) :
    aget (adel l k) k = none := by
  induction l with
  | nil => simp [adel, aget]
  | cons e rest ih =>
    by_cases h : e.1 = k <;> simp [adel, aget, h, ih]

theorem aget_adel_ne {κ α : Type} [DecidableEq κ] (l : List (κ × α)) (k k' : κ)
    (h : k' ≠ k) : aget (adel l k) k' = aget l k' := by
  have hne : ¬(k = k') := fun hk => h hk.symm
  induction l with
  | nil => simp [adel, aget]
  | cons e rest ih =>
    by_cases he : e.1 = k
    · simp [adel, aget, he, hne, ih]
    · by_cases he' : e.1 = k' <;> simp [adel, aget, he, he', ih, h]

theorem aget_eq_none_iff {κ α : Type} [DecidableEq κ] (l : List (κ × α)) (k : κ) :
    aget l k = none ↔ ∀ e ∈ l, e.1 ≠ k := by
  induction l with
  | nil => simp [aget]
  | cons e rest ih =>
    by_cases h : e.1 = k <;> simp [aget, h, ih]

theorem adel_of_aget_none {κ α : Type} [DecidableEq κ] (l : List (κ × α)) (k : κ)
    (h : aget l k = none) : adel l k = l := by
  induction l with
  | nil => simp [adel]
  | cons e rest ih =>
    rw [aget_eq_none_iff] at h
    have he : e.1 ≠ k := h e (List.mem_cons_self e rest)
    have hrest : aget rest k = none := by
      rw [aget_eq_none_iff]
      exact fun e' he' => h e' (List.mem_cons_of_mem e he')
    simp [adel, he, ih hrest]

theorem adel_aset_self {κ α : Type} [DecidableEq κ] (l : List (κ × α)) (k : κ) (v : α) :
    adel (aset l k v) k = adel l k := by
  induction l with
  | nil => simp [aset, adel]
  | cons e rest ih =>
    by_cases h : e.1 = k <;> simp [aset, adel, h, ih]

/-! ### JS `Set<ws>` semantics (variant A participant sets) -/

def sadd (l : List Nat) (x : Nat) : List Nat := if x ∈ l then l else l ++ [x]

def sdel : List Nat → Nat → List Nat
  | [], _ => []
  | y :: rest, x => if y = x then sdel rest x else y :: sdel rest x

theorem mem_sadd {l : List Nat} {x y : Nat} : y ∈ sadd l x ↔ y ∈ l ∨ y = x := by
  by_cases h : x ∈ l
  · simp only [sadd, if_pos h]
    constructor
    · exact Or.inl
    · rintro (hy | rfl)
      · exact hy
      · exact h
  · simp [sadd, if_neg h]

theorem sadd_ne_nil (l : List Nat) (x : Nat) : sadd l x ≠ [] := by
  by_cases h : x ∈ l
  · simp only [sadd, if_pos h]
    intro hnil
    subst hnil
    simp at h
  · simp [sadd, if_neg h]

theorem mem_sdel {l : List Nat} {x y : Nat} : y ∈ sdel l x ↔ y ∈ l ∧ y ≠ x := by
  induction l with
  | nil => simp [sdel]
  | cons z rest ih =>
    by_cases h : z = x
    · subst h
      simp only [sdel, if_pos rfl, ih, List.mem_cons]
      tauto
    · simp only [sdel, if_neg h, List.mem_cons, ih]
      constructor
      · rintro (rfl | ⟨hy, hne⟩)
        · exact ⟨Or.inl rfl, h⟩
        · exact ⟨Or.inr hy, hne⟩
      · rintro ⟨rfl | hy, hne⟩
        · exact Or.inl rfl
        · exact Or.inr ⟨hy, hne⟩

/-! ### Inbound message envelope

Fields of a parsed client JSON message; absent fields are `none`.  The
`payload` field stands for the opaque SDP/candidate content. -/

structure ClientData where
  type : OStr
  tourId : OStr
  userId : OStr
  role : OStr
  targetId : OStr
  fromId : OStr
  fromRole : OStr
  payload : OStr
deriving DecidableEq

/-! ## Variant A (source lines 1-253) -/

structure ConnInfoA where
  userId : OStr
  tourId : OStr
  role : OStr
deriving DecidableEq

structure TourA where
  guide : Option Nat
  participants : List Nat
deriving DecidableEq

/-- Server-to-client frames sent by variant A; a `relayed` frame records the
original data plus the final (post-spread) `fromId` and `fromRole` fields of
the delivered JSON object. -/
inductive FrameA where
  | connected
  | pong
  | error (msg : String)
  | joinedTour (tourId role : OStr) (participantCount : Nat) (hasGuide : Bool)
  | participantJoined (participantId : OStr) (totalParticipants : Nat)
  | participantLeft (participantId : OStr) (totalParticipants : Nat)
  | guideLeft (tourId : OStr)
  | relayed (data : ClientData) (fromId fromRole : OStr)
deriving DecidableEq

structure StateA where
  tours : List (OStr × TourA)
  connections : List (Nat × ConnInfoA)
  log : List (Nat × FrameA)
deriving DecidableEq

/-- `leaveTour(ws)`, variant A (source lines 155-193). -/
def leaveTourA (ws : Nat) (s : StateA) : StateA :=
  match aget s.connections ws with
  | none => s
  | some c =>
    match aget s.tours c.tourId with
    | none => s
    | some tour =>
      let gl : TourA × List (Nat × FrameA) :=
        if c.role = some "guide" ∧ tour.guide = some ws then
          ({ tour with guide := none },
           tour.participants.map (fun p => (p, FrameA.guideLeft c.tourId)))
        else if c.role = some "participant" then
          let ps := sdel tour.participants ws
          ({ tour with participants := ps },
           match tour.guide with
           | some g => [(g, FrameA.participantLeft c.userId ps.length)]
           | none => [])
        else (tour, [])
      let tours1 :=
        if gl.1.guide = none ∧ gl.1.participants = [] then adel s.tours c.tourId
        else aset s.tours c.tourId gl.1
      { tours := tours1,
        connections := adel s.connections ws,
        log := s.log ++ gl.2 }

/-- `joinTour(ws, tourId, userId, role)`, variant A (source lines 114-153). -/
def joinTourA (ws : Nat) (tourId userId role : OStr) (s : StateA) : StateA :=
  let s0 := leaveTourA ws s
  let s1 := if (aget s0.tours tourId).isSome then s0
            else { s0 with tours := aset s0.tours tourId ⟨none, []⟩ }
  let tour := (aget s1.tours tourId).getD ⟨none, []⟩
  let s2 := { s1 with connections := aset s1.connections ws ⟨userId, tourId, role⟩ }
  if role = some "guide" then
    match tour.guide with
    | some _ =>
      { s2 with log := s2.log ++ [(ws, FrameA.error "Tour already has a guide")],
                connections := adel s2.connections ws }
    | none =>
      let t2 := { tour with guide := some ws }
      { s2 with tours := aset s2.tours tourId t2,
                log := s2.log ++ [(ws, FrameA.joinedTour tourId role t2.participants.length true)] }
  else if role = some "participant" then
    let ps := sadd tour.participants ws
    let t2 := { tour with participants := ps }
    let log1 :=
      match tour.guide with
      | some g => s2.log ++ [(g, FrameA.participantJoined userId ps.length)]
      | none => s2.log
    { s2 with tours := aset s2.tours tourId t2,
              log := log1 ++ [(ws, FrameA.joinedTour tourId role ps.length tour.guide.isSome)] }
  else
    { s2 with log := s2.log ++
        [(ws, FrameA.joinedTour tourId role tour.participants.length tour.guide.isSome)] }

/-- `relayToParticipants(tourId, data, senderWs)`, variant A (source lines
195-209).  The delivered JSON is `{...data, fromRole: 'guide'}`: the
client-supplied `fromId` passes through, `fromRole` is overridden. -/
def relayToParticipantsA (tourId : OStr) (data : ClientData) (senderWs : Nat)
    (s : StateA) : StateA :=
  match aget s.tours tourId with
  | none => s
  | some tour =>
    match aget s.connections senderWs with
    | none => s
    | some sc =>
      if sc.role = some "guide" then
        let msg := FrameA.relayed data data.fromId (some "guide")
        let sends := (tour.participants.filter (· ≠ senderWs)).map (fun p => (p, msg))
        { s with log := s.log ++ sends }
      else s

/-- `relayToGuide(tourId, data)`, variant A (source lines 211-217). -/
def relayToGuideA (tourId : OStr) (data : ClientData) (s : StateA) : StateA :=
  match aget s.tours tourId with
  | none => s
  | some tour =>
    match tour.guide with
    | none => s
    | some g =>
      { s with log := s.log ++ [(g, FrameA.relayed data data.fromId (some "participant"))] }

/-- `relayIceCandidate(senderConnection, data)`, variant A (source lines
219-235). -/
def relayIceCandidateA (sc : ConnInfoA) (data : ClientData) (s : StateA) : StateA :=
  match aget s.tours sc.tourId with
  | none => s
  | some tour =>
    let msg := FrameA.relayed data data.fromId sc.role
    if sc.role = some "guide" then
      { s with log := s.log ++ tour.participants.map (fun p => (p, msg)) }
    else
      match tour.guide with
      | some g => { s with log := s.log ++ [(g, msg)] }
      | none => s

/-- `handleMessage(ws, data)`, variant A (source lines 80-112). -/
def handleMessageA (ws : Nat) (data : ClientData) (s : StateA) : StateA :=
  if data.type = some "join-tour" then joinTourA ws data.tourId data.userId data.role s
  else if data.type = some "leave-tour" then leaveTourA ws s
  else if data.type = some "offer" then
    match aget s.connections ws with
    | some c => relayToParticipantsA c.tourId data ws s
    | none => s
  else if data.type = some "answer" then
    match aget s.connections ws with
    | some c => relayToGuideA c.tourId data s
    | none => s
  else if data.type = some "ice-candidate" then
    match aget s.connections ws with
    | some c => relayIceCandidateA c data s
    | none => s
  else if data.type = some "ping" then
    { s with log := s.log ++ [(ws, FrameA.pong)] }
  else
    { s with log := s.log ++ [(ws, FrameA.error "Unknown message type")] }

/-- The Session Manager operations of variant A: `join-tour`, `leave-tour`,
and transport disconnection (`handleDisconnection`, which is `leaveTour`). -/
inductive OpA where
  | join (ws : Nat) (tourId userId role : OStr)
  | leave (ws : Nat)
  | disconnect (ws : Nat)
deriving DecidableEq

def stepA : OpA → StateA → StateA
  | OpA.join ws tourId userId role, s => joinTourA ws tourId userId role s
  | OpA.leave ws, s => leaveTourA ws s
  | OpA.disconnect ws, s => leaveTourA ws s

def initA : StateA := ⟨[], [], []⟩

def runA (ops : List OpA) : StateA := ops.foldl (fun s op => stepA op s) initA

/-- An operation whose `join-tour` role is one of the two recognized role
strings. -/
def ValidOpA : OpA → Prop
  | OpA.join _ _ _ r => r = some "guide" ∨ r = some "participant"
  | OpA.leave _ => True
  | OpA.disconnect _ => True

instance : DecidablePred ValidOpA := by
  intro op
  cases op <;> simp [ValidOpA] <;> infer_instance

/-! ## Variant B (source lines 254-419) -/

structure ConnInfoB where
  userId : OStr
  tourId : OStr
deriving DecidableEq

/-- A variant-B tour record: `guide` is `{ ws, userId }` or null, and
`participants` is a JS `Map<userId, ws>`. -/
structure TourB where
  guide : Option (Nat × OStr)
  participants : List (OStr × Nat)
deriving DecidableEq

/-- Server-to-client frames sent by variant B.  `relayed` records the
original data plus the final (post-spread) `fromId` and `fromRole` of the
delivered `{...data, fromId}` object: `fromId` is overridden with the
sender's registry identity, while any client-supplied `fromRole` passes
through untouched. -/
inductive FrameB where
  | error (msg : String)
  | participantJoined (participantId : OStr)
  | participantLeft (participantId : OStr)
  | guideLeft
  | relayed (data : ClientData) (fromId fromRole : OStr)
deriving DecidableEq

structure StateB where
  tours : List (OStr × TourB)
  connections : List (Nat × ConnInfoB)
  log : List (Nat × FrameB)
deriving DecidableEq

/-- `leaveTour(ws)`, variant B (source lines 361-389).  Note: when the
bound identity is the tour's guide (matched by `userId`), the whole tour is
deleted immediately; and when the identity's tour is no longer in the Tour
Registry the function returns early WITHOUT removing the connection
entry. -/
def leaveTourB (ws : Nat) (s : StateB) : StateB :=
  match aget s.connections ws with
  | none => s
  | some c =>
    match aget s.tours c.tourId with
    | none => s
    | some tour =>
      let isGuide : Bool := match tour.guide with
        | some g => decide (g.2 = c.userId)
        | none => false
      if isGuide then
        { tours := adel s.tours c.tourId,
          connections := adel s.connections ws,
          log := s.log ++ tour.participants.map (fun e => (e.2, FrameB.guideLeft)) }
      else if (aget tour.participants c.userId).isSome then
        let t1 := { tour with participants := adel tour.participants c.userId }
        let log1 := match tour.guide with
          | some g => s.log ++ [(g.1, FrameB.participantLeft c.userId)]
          | none => s.log
        { tours := aset s.tours c.tourId t1,
          connections := adel s.connections ws,
          log := log1 }
      else
        { s with connections := adel s.connections ws }

/-- `joinTour(ws, tourId, userId, role)`, variant B (source lines 331-359).
Variant B sends no `joined-tour` reply. -/
def joinTourB (ws : Nat) (tourId userId role : OStr) (s : StateB) : StateB :=
  let s0 := leaveTourB ws s
  let s1 := if (aget s0.tours tourId).isSome then s0
            else { s0 with tours := aset s0.tours tourId ⟨none, []⟩ }
  let tour := (aget s1.tours tourId).getD ⟨none, []⟩
  let s2 := { s1 with connections := aset s1.connections ws ⟨userId, tourId⟩ }
  if role = some "guide" then
    match tour.guide with
    | some _ =>
      { s2 with log := s2.log ++ [(ws, FrameB.error "Tour already has a guide")],
                connections := adel s2.connections ws }
    | none =>
      { s2 with tours := aset s2.tours tourId { tour with guide := some (ws, userId) } }
  else if role = some "participant" then
    let t1 := { tour with participants := aset tour.participants userId ws }
    let log1 := match tour.guide with
      | some g => s2.log ++ [(g.1, FrameB.participantJoined userId)]
      | none => s2.log
    { s2 with tours := aset s2.tours tourId t1, log := log1 }
  else s2

/-- Target resolution of variant B's `relay` (source lines 395-403): the
guide's connection if the guide slot's `userId` equals `targetId`, else the
participant-table entry for `targetId`. -/
def resolveTargetB (tour : TourB) (targetId : OStr) : Option Nat :=
  match tour.guide with
  | some g => if g.2 = targetId then some g.1 else aget tour.participants targetId
  | none => aget tour.participants targetId

/-- `relay(fromId, tourId, data)`, variant B (source lines 391-410).  The
tour is looked up by the `tourId` taken from the message, not from the
sender's registry binding. -/
def relayB (fromId : OStr) (tourId : OStr) (data : ClientData) (s : StateB) : StateB :=
  match aget s.tours tourId with
  | none => s
  | some tour =>
    match resolveTargetB tour data.targetId with
    | some tws => { s with log := s.log ++ [(tws, FrameB.relayed data fromId data.fromRole)] }
    | none => s

/-- `handleMessage(ws, data, connectionInfo)`, variant B (source lines
313-329).  Variant B has no `leave-tour` and no `ping` case. -/
def handleMessageB (ws : Nat) (data : ClientData) (ci : ConnInfoB) (s : StateB) : StateB :=
  if data.type = some "join-tour" then joinTourB ws data.tourId data.userId data.role s
  else if data.type = some "offer" ∨ data.type = some "answer" ∨
          data.type = some "ice-candidate" then
    relayB ci.userId data.tourId data s
  else
    { s with log := s.log ++ [(ws, FrameB.error "Unknown message type")] }

/-- The `websocket.message` handler of variant B (source lines 261-272):
a frame from a connection with no registry entry is dropped before
dispatch. -/
def wsMessageB (ws : Nat) (data : ClientData) (s : StateB) : StateB :=
  match aget s.connections ws with
  | some ci => handleMessageB ws data ci s
  | none => s

def initB : StateB := ⟨[], [], []⟩

/-! ## Characterization lemmas for the variant-A operations -/

theorem aset_aset_self {κ α : Type} [DecidableEq κ] (l : List (κ × α)) (k : κ) (v v' : α) :
    aset (aset l k v) k v' = aset l k v' := by
  induction l with
  | nil => simp [aset]
  | cons e rest ih =>
    by_cases h : e.1 = k <;> simp [aset, h, ih]

theorem leaveTourA_unbound {s : StateA} {ws : Nat}
    (h : aget s.connections ws = none) : leaveTourA ws s = s := by
  simp [leaveTourA, h]

theorem leaveTourA_stale {s : StateA} {ws : Nat} {c : ConnInfoA}
    (hc : aget s.connections ws = some c) (ht : aget s.tours c.tourId = none) :
    leaveTourA ws s = s := by
  simp [leaveTourA, hc, ht]

theorem leaveTourA_guide {s : StateA} {ws : Nat} {c : ConnInfoA} {tour : TourA}
    (hc : aget s.connections ws = some c) (ht : aget s.tours c.tourId = some tour)
    (hr : c.role = some "guide") (hg : tour.guide = some ws) :
    leaveTourA ws s =
      { tours := if tour.participants = [] then adel s.tours c.tourId
                 else aset s.tours c.tourId { tour with guide := none },
        connections := adel s.connections ws,
        log := s.log ++ tour.participants.map (fun p => (p, FrameA.guideLeft c.tourId)) } := by
  simp [leaveTourA, hc, ht, hr, hg]

theorem leaveTourA_participant {s : StateA} {ws : Nat} {c : ConnInfoA} {tour : TourA}
    (hc : aget s.connections ws = some c) (ht : aget s.tours c.tourId = some tour)
    (hr : c.role = some "participant") :
    leaveTourA ws s =
      { tours := if tour.guide = none ∧ sdel tour.participants ws = []
                 then adel s.tours c.tourId
                 else aset s.tours c.tourId { tour with participants := sdel tour.participants ws },
        connections := adel s.connections ws,
        log := s.log ++ (match tour.guide with
          | some g => [(g, FrameA.participantLeft c.userId (sdel tour.participants ws).length)]
          | none => []) } := by
  have hng : ¬(c.role = some "guide" ∧ tour.guide = some ws) := by
    rintro ⟨h1, -⟩
    rw [hr] at h1
    exact absurd h1 (by decide)
  simp [leaveTourA, hc, ht, hr, hng]

theorem aget_if_adel_aset {κ α : Type} [DecidableEq κ] (cond : Prop) [Decidable cond]
    (l : List (κ × α)) (k k' : κ) (v : α) (h : k' ≠ k) :
    aget (if cond then adel l k else aset l k v) k' = aget l k' := by
  split
  · exact aget_adel_ne _ _ _ h
  · exact aget_aset_ne _ _ _ _ h

theorem leaveTourA_tours_other (s : StateA) (ws : Nat) (tid : OStr)
    (h : ∀ c, aget s.connections ws = some c → tid ≠ c.tourId) :
    aget (leaveTourA ws s).tours tid = aget s.tours tid := by
  cases hcw : aget s.connections ws with
  | none => rw [leaveTourA_unbound hcw]
  | some c =>
    have hne := h c hcw
    cases htt : aget s.tours c.tourId with
    | none => rw [leaveTourA_stale hcw htt]
    | some tour =>
      simp only [leaveTourA, hcw, htt]
      exact aget_if_adel_aset _ _ _ _ _ hne

theorem joinTourA_guide_reject {s : StateA} {ws : Nat} {tourId userId : OStr}
    {tour : TourA} {g : Nat}
    (ht : aget (leaveTourA ws s).tours tourId = some tour) (hg : tour.guide = some g) :
    joinTourA ws tourId userId (some "guide") s =
      { tours := (leaveTourA ws s).tours,
        connections := adel (aset (leaveTourA ws s).connections ws
          ⟨userId, tourId, some "guide"⟩) ws,
        log := (leaveTourA ws s).log ++ [(ws, FrameA.error "Tour already has a guide")] } := by
  simp [joinTourA, ht, hg]

theorem joinTourA_guide_ok {s : StateA} {ws : Nat} {tourId userId : OStr} {tour : TourA}
    (ht : aget (leaveTourA ws s).tours tourId = some tour) (hg : tour.guide = none) :
    joinTourA ws tourId userId (some "guide") s =
      { tours := aset (leaveTourA ws s).tours tourId { tour with guide := some ws },
        connections := aset (leaveTourA ws s).connections ws ⟨userId, tourId, some "guide"⟩,
        log := (leaveTourA ws s).log ++
          [(ws, FrameA.joinedTour tourId (some "guide") tour.participants.length true)] } := by
  simp [joinTourA, ht, hg]

theorem joinTourA_guide_fresh {s : StateA} {ws : Nat} {tourId userId : OStr}
    (ht : aget (leaveTourA ws s).tours tourId = none) :
    joinTourA ws tourId userId (some "guide") s =
      { tours := aset (leaveTourA ws s).tours tourId ⟨some ws, []⟩,
        connections := aset (leaveTourA ws s).connections ws ⟨userId, tourId, some "guide"⟩,
        log := (leaveTourA ws s).log ++
          [(ws, FrameA.joinedTour tourId (some "guide") 0 true)] } := by
  simp [joinTourA, ht, aget_aset_self, aset_aset_self]

theorem joinTourA_participant_bound {s : StateA} {ws : Nat} {tourId userId : OStr}
    {tour : TourA}
    (ht : aget (leaveTourA ws s).tours tourId = some tour) :
    joinTourA ws tourId userId (some "participant") s =
      { tours := aset (leaveTourA ws s).tours tourId
          { tour with participants := sadd tour.participants ws },
        connections := aset (leaveTourA ws s).connections ws ⟨userId, tourId, some "participant"⟩,
        log := (match tour.guide with
          | some g => (leaveTourA ws s).log ++
              [(g, FrameA.participantJoined userId (sadd tour.participants ws).length)]
          | none => (leaveTourA ws s).log) ++
          [(ws, FrameA.joinedTour tourId (some "participant")
              (sadd tour.participants ws).length tour.guide.isSome)] } := by
  simp [joinTourA, ht]

theorem joinTourA_participant_fresh {s : StateA} {ws : Nat} {tourId userId : OStr}
    (ht : aget (leaveTourA ws s).tours tourId = none) :
    joinTourA ws tourId userId (some "participant") s =
      { tours := aset (leaveTourA ws s).tours tourId ⟨none, [ws]⟩,
        connections := aset (leaveTourA ws s).connections ws ⟨userId, tourId, some "participant"⟩,
        log := (leaveTourA ws s).log ++
          [(ws, FrameA.joinedTour tourId (some "participant") 1 false)] } := by
  simp [joinTourA, ht, aget_aset_self, aset_aset_self, sadd]

theorem joinTourA_other {s : StateA} {ws : Nat} {tourId userId role : OStr}
    (hr1 : role ≠ some "guide") (hr2 : role ≠ some "participant") :
    joinTourA ws tourId userId role s =
      { tours := if (aget (leaveTourA ws s).tours tourId).isSome
                 then (leaveTourA ws s).tours
                 else aset (leaveTourA ws s).tours tourId ⟨none, []⟩,
        connections := aset (leaveTourA ws s).connections ws ⟨userId, tourId, role⟩,
        log := (leaveTourA ws s).log ++
          [(ws, FrameA.joinedTour tourId role
              ((aget (leaveTourA ws s).tours tourId).getD ⟨none, []⟩).participants.length
              ((aget (leaveTourA ws s).tours tourId).getD ⟨none, []⟩).guide.isSome)] } := by
  cases ht : aget (leaveTourA ws s).tours tourId with
  | none => simp [joinTourA, ht, hr1, hr2, aget_aset_self]
  | some tour => simp [joinTourA, ht, hr1, hr2]

/-! ## Registry invariants of variant A

`NonEmptyToursA` is spec invariant I3 (no tour with empty guide slot and
empty participant table).  `BoundConsistentA` says every Connection
Registry entry points at a live tour of which the connection is the guide
or a participant, with a recognized role string.  `TourConsistentA` is the
converse: every connection a tour record references is bound to exactly
that tour with the matching role. -/

def NonEmptyToursA (s : StateA) : Prop :=
  ∀ tid t, aget s.tours tid = some t → ¬(t.guide = none ∧ t.participants = [])

def BoundConsistentA (s : StateA) : Prop :=
  ∀ ws c, aget s.connections ws = some c →
    ∃ t, aget s.tours c.tourId = some t ∧
      ((c.role = some "guide" ∧ t.guide = some ws) ∨
       (c.role = some "participant" ∧ ws ∈ t.participants))

def TourConsistentA (s : StateA) : Prop :=
  ∀ tid t, aget s.tours tid = some t →
    (∀ w, t.guide = some w → ∃ u, aget s.connections w = some ⟨u, tid, some "guide"⟩) ∧
    (∀ w, w ∈ t.participants → ∃ u, aget s.connections w = some ⟨u, tid, some "participant"⟩)

def InvA (s : StateA) : Prop := NonEmptyToursA s ∧ BoundConsistentA s ∧ TourConsistentA s

theorem invA_initA : InvA initA := by
  refine ⟨?_, ?_, ?_⟩ <;> intro a b hab <;> simp [initA, aget] at hab

/-- Deleting the tour of connection `ws` (and unbinding `ws`) preserves the
invariant, provided `ws` was the only member of that tour. -/
theorem invA_helper_del (s : StateA) (ws : Nat) (c : ConnInfoA) (lg : List (Nat × FrameA))
    (hne : NonEmptyToursA s) (hbc : BoundConsistentA s) (htc : TourConsistentA s)
    (hcw : aget s.connections ws = some c)
    (honly : ∀ w' c', aget s.connections w' = some c' → c'.tourId = c.tourId → w' = ws) :
    InvA { tours := adel s.tours c.tourId,
           connections := adel s.connections ws, log := lg } := by
  refine ⟨?_, ?_, ?_⟩
  · intro tid t ht
    by_cases htid : tid = c.tourId
    · subst htid
      rw [aget_adel_self] at ht
      exact absurd ht (by simp)
    · rw [aget_adel_ne _ _ _ htid] at ht
      exact hne tid t ht
  · intro w' c' hw'
    by_cases hww : w' = ws
    · subst hww
      rw [aget_adel_self] at hw'
      exact absurd hw' (by simp)
    · rw [aget_adel_ne _ _ _ hww] at hw'
      obtain ⟨t', ht', hr'⟩ := hbc w' c' hw'
      by_cases htid : c'.tourId = c.tourId
      · exact absurd (honly w' c' hw' htid) hww
      · exact ⟨t', by rw [aget_adel_ne _ _ _ htid]; exact ht', hr'⟩
  · intro tid t ht
    by_cases htid : tid = c.tourId
    · subst htid
      rw [aget_adel_self] at ht
      exact absurd ht (by simp)
    · rw [aget_adel_ne _ _ _ htid] at ht
      obtain ⟨hgu, hpa⟩ := htc tid t ht
      constructor
      · intro w hw
        obtain ⟨u, hu⟩ := hgu w hw
        have hwws : w ≠ ws := by
          intro hww
          subst hww
          rw [hcw] at hu
          injection hu with hu
          have hct : c.tourId = tid := by rw [hu]
          exact htid hct.symm
        exact ⟨u, by rw [aget_adel_ne _ _ _ hwws]; exact hu⟩
      · intro w hw
        obtain ⟨u, hu⟩ := hpa w hw
        have hwws : w ≠ ws := by
          intro hww
          subst hww
          rw [hcw] at hu
          injection hu with hu
          have hct : c.tourId = tid := by rw [hu]
          exact htid hct.symm
        exact ⟨u, by rw [aget_adel_ne _ _ _ hwws]; exact hu⟩

/-- Replacing the tour record of connection `ws`'s tour (and unbinding `ws`)
preserves the invariant, provided the new record is non-empty, its members
are old members other than `ws`, and old members other than `ws` are kept. -/
theorem invA_helper_set (s : StateA) (ws : Nat) (c : ConnInfoA) (t0 t1 : TourA)
    (lg : List (Nat × FrameA))
    (hne : NonEmptyToursA s) (hbc : BoundConsistentA s) (htc : TourConsistentA s)
    (hcw : aget s.connections ws = some c)
    (ht0 : aget s.tours c.tourId = some t0)
    (hfull : ¬(t1.guide = none ∧ t1.participants = []))
    (hg1 : ∀ w, t1.guide = some w → t0.guide = some w ∧ w ≠ ws)
    (hp1 : ∀ w, w ∈ t1.participants → w ∈ t0.participants ∧ w ≠ ws)
    (hg0 : ∀ w, t0.guide = some w → w ≠ ws → t1.guide = some w)
    (hp0 : ∀ w, w ∈ t0.participants → w ≠ ws → w ∈ t1.participants) :
    InvA { tours := aset s.tours c.tourId t1,
           connections := adel s.connections ws, log := lg } := by
  refine ⟨?_, ?_, ?_⟩
  · intro tid t ht
    by_cases htid : tid = c.tourId
    · subst htid
      rw [aget_aset_self] at ht
      injection ht with ht
      rw [← ht]
      exact hfull
    · rw [aget_aset_ne _ _ _ _ htid] at ht
      exact hne tid t ht
  · intro w' c' hw'
    by_cases hww : w' = ws
    · subst hww
      rw [aget_adel_self] at hw'
      exact absurd hw' (by simp)
    · rw [aget_adel_ne _ _ _ hww] at hw'
      obtain ⟨t', ht', hr'⟩ := hbc w' c' hw'
      by_cases htid : c'.tourId = c.tourId
      · rw [htid, ht0] at ht'
        injection ht' with ht'
        subst ht'
        refine ⟨t1, by rw [htid]; exact aget_aset_self _ _ _, ?_⟩
        rcases hr' with ⟨hrr, hgg⟩ | ⟨hrr, hmm⟩
        · exact Or.inl ⟨hrr, hg0 w' hgg hww⟩
        · exact Or.inr ⟨hrr, hp0 w' hmm hww⟩
      · exact ⟨t', by rw [aget_aset_ne _ _ _ _ htid]; exact ht', hr'⟩
  · intro tid t ht
    by_cases htid : tid = c.tourId
    · subst htid
      rw [aget_aset_self] at ht
      injection ht with ht
      subst ht
      obtain ⟨hgu, hpa⟩ := htc c.tourId t0 ht0
      constructor
      · intro w hw
        obtain ⟨hgw, hwws⟩ := hg1 w hw
        obtain ⟨u, hu⟩ := hgu w hgw
        exact ⟨u, by rw [aget_adel_ne _ _ _ hwws]; exact hu⟩
      · intro w hw
        obtain ⟨hpw, hwws⟩ := hp1 w hw
        obtain ⟨u, hu⟩ := hpa w hpw
        exact ⟨u, by rw [aget_adel_ne _ _ _ hwws]; exact hu⟩
    · rw [aget_aset_ne _ _ _ _ htid] at ht
      obtain ⟨hgu, hpa⟩ := htc tid t ht
      constructor
      · intro w hw
        obtain ⟨u, hu⟩ := hgu w hw
        have hwws : w ≠ ws := by
          intro hww
          subst hww
          rw [hcw] at hu
          injection hu with hu
          have hct : c.tourId = tid := by rw [hu]
          exact htid hct.symm
        exact ⟨u, by rw [aget_adel_ne _ _ _ hwws]; exact hu⟩
      · intro w hw
        obtain ⟨u, hu⟩ := hpa w hw
        have hwws : w ≠ ws := by
          intro hww
          subst hww
          rw [hcw] at hu
          injection hu with hu
          have hct : c.tourId = tid := by rw [hu]
          exact htid hct.symm
        exact ⟨u, by rw [aget_adel_ne _ _ _ hwws]; exact hu⟩

/-- `leaveTour` (variant A) preserves the registry invariant and always
leaves the handle unbound. -/
theorem invA_leaveTourA (s : StateA) (ws : Nat) (h : InvA s) :
    InvA (leaveTourA ws s) ∧ aget (leaveTourA ws s).connections ws = none := by
  obtain ⟨hne, hbc, htc⟩ := h
  cases hcw : aget s.connections ws with
  | none =>
    rw [leaveTourA_unbound hcw]
    exact ⟨⟨hne, hbc, htc⟩, hcw⟩
  | some c =>
    obtain ⟨t0, ht0, hrole⟩ := hbc ws c hcw
    rcases hrole with ⟨hr, hg⟩ | ⟨hr, hmem⟩
    · -- the leaving connection is the tour's guide
      rw [leaveTourA_guide hcw ht0 hr hg]
      by_cases hps : t0.participants = []
      · rw [if_pos hps]
        refine ⟨invA_helper_del s ws c _ hne hbc htc hcw ?_, aget_adel_self _ _⟩
        intro w' c' hw' htid
        obtain ⟨t', ht', hr'⟩ := hbc w' c' hw'
        rw [htid, ht0] at ht'
        injection ht' with ht'
        subst ht'
        rcases hr' with ⟨-, hgg⟩ | ⟨-, hmm⟩
        · rw [hg] at hgg
          injection hgg with hgg
          exact hgg.symm
        · rw [hps] at hmm
          simp at hmm
      · rw [if_neg hps]
        refine ⟨invA_helper_set s ws c t0 _ _ hne hbc htc hcw ht0 ?_ ?_ ?_ ?_ ?_,
          aget_adel_self _ _⟩
        · rintro ⟨-, hemp⟩
          exact hps hemp
        · intro w hw
          exact absurd hw (by simp)
        · intro w hw
          refine ⟨hw, ?_⟩
          intro hww
          subst hww
          obtain ⟨hgu, hpa⟩ := htc c.tourId t0 ht0
          obtain ⟨u, hu⟩ := hpa w hw
          rw [hcw] at hu
          injection hu with hu
          rw [hu] at hr
          simp at hr
        · intro w hgw hww
          rw [hg] at hgw
          injection hgw with hgw
          exact absurd hgw.symm hww
        · intro w hw hww
          exact hw
    · -- the leaving connection is a participant
      rw [leaveTourA_participant hcw ht0 hr]
      by_cases hcond : t0.guide = none ∧ sdel t0.participants ws = []
      · rw [if_pos hcond]
        refine ⟨invA_helper_del s ws c _ hne hbc htc hcw ?_, aget_adel_self _ _⟩
        intro w' c' hw' htid
        obtain ⟨t', ht', hr'⟩ := hbc w' c' hw'
        rw [htid, ht0] at ht'
        injection ht' with ht'
        subst ht'
        rcases hr' with ⟨-, hgg⟩ | ⟨-, hmm⟩
        · rw [hcond.1] at hgg
          injection hgg
        · by_contra hww
          have : w' ∈ sdel t0.participants ws := mem_sdel.mpr ⟨hmm, hww⟩
          rw [hcond.2] at this
          simp at this
      · rw [if_neg hcond]
        refine ⟨invA_helper_set s ws c t0 _ _ hne hbc htc hcw ht0 ?_ ?_ ?_ ?_ ?_,
          aget_adel_self _ _⟩
        · exact hcond
        · intro w hw
          refine ⟨hw, ?_⟩
          intro hww
          subst hww
          obtain ⟨hgu, hpa⟩ := htc c.tourId t0 ht0
          obtain ⟨u, hu⟩ := hgu w hw
          rw [hcw] at hu
          injection hu with hu
          rw [hu] at hr
          simp at hr
        · intro w hw
          exact ⟨(mem_sdel.mp hw).1, (mem_sdel.mp hw).2⟩
        · intro w hgw hww
          exact hgw
        · intro w hw hww
          exact mem_sdel.mpr ⟨hw, hww⟩

/-- Writing a tour record at `tourId` and binding the previously-unbound
handle `ws` with role `roleStr` preserves the invariant, provided the new
record's members other than `ws` are members of the old record at `tourId`,
old members are kept, and `ws` appears in the slot matching `roleStr`. -/
theorem invA_helper_join (s : StateA) (ws : Nat) (tourId userId : OStr) (roleStr : String)
    (t1 : TourA) (lg : List (Nat × FrameA))
    (hne : NonEmptyToursA s) (hbc : BoundConsistentA s) (htc : TourConsistentA s)
    (hws : aget s.connections ws = none)
    (hfull : ¬(t1.guide = none ∧ t1.participants = []))
    (hg1 : ∀ w, t1.guide = some w → w ≠ ws →
        ∃ t0, aget s.tours tourId = some t0 ∧ t0.guide = some w)
    (hp1 : ∀ w, w ∈ t1.participants → w ≠ ws →
        ∃ t0, aget s.tours tourId = some t0 ∧ w ∈ t0.participants)
    (hself : (t1.guide = some ws ∧ roleStr = "guide") ∨
             (ws ∈ t1.participants ∧ roleStr = "participant"))
    (hgws : t1.guide = some ws → roleStr = "guide")
    (hpws : ws ∈ t1.participants → roleStr = "participant")
    (hg0 : ∀ t0, aget s.tours tourId = some t0 → ∀ w, t0.guide = some w → t1.guide = some w)
    (hp0 : ∀ t0, aget s.tours tourId = some t0 →
        ∀ w, w ∈ t0.participants → w ∈ t1.participants) :
    InvA { tours := aset s.tours tourId t1,
           connections := aset s.connections ws ⟨userId, tourId, some roleStr⟩,
           log := lg } := by
  refine ⟨?_, ?_, ?_⟩
  · intro tid t ht
    by_cases htid : tid = tourId
    · subst htid
      rw [aget_aset_self] at ht
      injection ht with ht
      rw [← ht]
      exact hfull
    · rw [aget_aset_ne _ _ _ _ htid] at ht
      exact hne tid t ht
  · intro w' c' hw'
    by_cases hww : w' = ws
    · subst hww
      rw [aget_aset_self] at hw'
      injection hw' with hw'
      subst hw'
      refine ⟨t1, aget_aset_self _ _ _, ?_⟩
      rcases hself with ⟨hgw, hrs⟩ | ⟨hpw, hrs⟩
      · exact Or.inl ⟨by rw [hrs], hgw⟩
      · exact Or.inr ⟨by rw [hrs], hpw⟩
    · rw [aget_aset_ne _ _ _ _ hww] at hw'
      obtain ⟨t', ht', hr'⟩ := hbc w' c' hw'
      by_cases htid : c'.tourId = tourId
      · rw [htid] at ht'
        refine ⟨t1, by rw [htid]; exact aget_aset_self _ _ _, ?_⟩
        rcases hr' with ⟨hrr, hgg⟩ | ⟨hrr, hmm⟩
        · exact Or.inl ⟨hrr, hg0 t' ht' w' hgg⟩
        · exact Or.inr ⟨hrr, hp0 t' ht' w' hmm⟩
      · exact ⟨t', by rw [aget_aset_ne _ _ _ _ htid]; exact ht', hr'⟩
  · intro tid t ht
    by_cases htid : tid = tourId
    · subst htid
      rw [aget_aset_self] at ht
      injection ht with ht
      subst ht
      constructor
      · intro w hw
        by_cases hwws : w = ws
        · subst hwws
          have hrs := hgws hw
          subst hrs
          exact ⟨userId, aget_aset_self _ _ _⟩
        · obtain ⟨t0, ht0, hg0w⟩ := hg1 w hw hwws
          obtain ⟨hgu, -⟩ := htc _ t0 ht0
          obtain ⟨u, hu⟩ := hgu w hg0w
          exact ⟨u, by rw [aget_aset_ne _ _ _ _ hwws]; exact hu⟩
      · intro w hw
        by_cases hwws : w = ws
        · subst hwws
          have hrs := hpws hw
          subst hrs
          exact ⟨userId, aget_aset_self _ _ _⟩
        · obtain ⟨t0, ht0, hp0w⟩ := hp1 w hw hwws
          obtain ⟨-, hpa⟩ := htc _ t0 ht0
          obtain ⟨u, hu⟩ := hpa w hp0w
          exact ⟨u, by rw [aget_aset_ne _ _ _ _ hwws]; exact hu⟩
    · rw [aget_aset_ne _ _ _ _ htid] at ht
      obtain ⟨hgu, hpa⟩ := htc tid t ht
      constructor
      · intro w hw
        obtain ⟨u, hu⟩ := hgu w hw
        have hwws : w ≠ ws := by
          intro hww
          subst hww
          rw [hws] at hu
          exact absurd hu (by simp)
        exact ⟨u, by rw [aget_aset_ne _ _ _ _ hwws]; exact hu⟩
      · intro w hw
        obtain ⟨u, hu⟩ := hpa w hw
        have hwws : w ≠ ws := by
          intro hww
          subst hww
          rw [hws] at hu
          exact absurd hu (by simp)
        exact ⟨u, by rw [aget_aset_ne _ _ _ _ hwws]; exact hu⟩

/-- `joinTour` (variant A) with a recognized role preserves the registry
invariant. -/
theorem invA_joinTourA (s : StateA) (ws : Nat) (tourId userId role : OStr)
    (h : InvA s) (hrole : role = some "guide" ∨ role = some "participant") :
    InvA (joinTourA ws tourId userId role s) := by
  obtain ⟨h0, hws0⟩ := invA_leaveTourA s ws h
  obtain ⟨hne0, hbc0, htc0⟩ := h0
  rcases hrole with rfl | rfl
  · cases ht : aget (leaveTourA ws s).tours tourId with
    | none =>
      rw [joinTourA_guide_fresh ht]
      refine invA_helper_join _ ws tourId userId "guide" _ _ hne0 hbc0 htc0 hws0
        ?_ ?_ ?_ ?_ ?_ ?_ ?_ ?_
      · simp
      · intro w hw hww
        injection hw with hw
        exact absurd hw.symm hww
      · intro w hw hww
        exact absurd hw (by simp)
      · exact Or.inl ⟨rfl, rfl⟩
      · intro hw
        rfl
      · intro hw
        exact absurd hw (by simp)
      · intro t0 ht0
        rw [ht] at ht0
        exact absurd ht0 (by simp)
      · intro t0 ht0
        rw [ht] at ht0
        exact absurd ht0 (by simp)
    | some tour =>
      cases hg : tour.guide with
      | some g =>
        rw [joinTourA_guide_reject ht hg, adel_aset_self, adel_of_aget_none _ _ hws0]
        exact ⟨hne0, hbc0, htc0⟩
      | none =>
        rw [joinTourA_guide_ok ht hg]
        refine invA_helper_join _ ws tourId userId "guide" _ _ hne0 hbc0 htc0 hws0
          ?_ ?_ ?_ ?_ ?_ ?_ ?_ ?_
        · simp
        · intro w hw hww
          injection hw with hw
          exact absurd hw.symm hww
        · intro w hw hww
          exact ⟨tour, ht, hw⟩
        · exact Or.inl ⟨rfl, rfl⟩
        · intro hw
          rfl
        · intro hw
          obtain ⟨-, hpa⟩ := htc0 tourId tour ht
          obtain ⟨u, hu⟩ := hpa ws hw
          rw [hws0] at hu
          exact absurd hu (by simp)
        · intro t0 ht0 w hgw
          rw [ht] at ht0
          injection ht0 with ht0
          subst ht0
          rw [hg] at hgw
          exact absurd hgw (by simp)
        · intro t0 ht0 w hmw
          rw [ht] at ht0
          injection ht0 with ht0
          subst ht0
          exact hmw
  · cases ht : aget (leaveTourA ws s).tours tourId with
    | none =>
      rw [joinTourA_participant_fresh ht]
      refine invA_helper_join _ ws tourId userId "participant" _ _ hne0 hbc0 htc0 hws0
        ?_ ?_ ?_ ?_ ?_ ?_ ?_ ?_
      · simp
      · intro w hw hww
        exact absurd hw (by simp)
      · intro w hw hww
        simp at hw
        exact absurd hw hww
      · exact Or.inr ⟨by simp, rfl⟩
      · intro hw
        exact absurd hw (by simp)
      · intro hw
        rfl
      · intro t0 ht0
        rw [ht] at ht0
        exact absurd ht0 (by simp)
      · intro t0 ht0
        rw [ht] at ht0
        exact absurd ht0 (by simp)
    | some tour =>
      rw [joinTourA_participant_bound ht]
      refine invA_helper_join _ ws tourId userId "participant" _ _ hne0 hbc0 htc0 hws0
        ?_ ?_ ?_ ?_ ?_ ?_ ?_ ?_
      · rintro ⟨-, hemp⟩
        exact sadd_ne_nil _ _ hemp
      · intro w hw hww
        exact ⟨tour, ht, hw⟩
      · intro w hw hww
        rcases mem_sadd.mp hw with hw' | hw'
        · exact ⟨tour, ht, hw'⟩
        · exact absurd hw' hww
      · exact Or.inr ⟨mem_sadd.mpr (Or.inr rfl), rfl⟩
      · intro hw
        obtain ⟨hgu, -⟩ := htc0 tourId tour ht
        obtain ⟨u, hu⟩ := hgu ws hw
        rw [hws0] at hu
        exact absurd hu (by simp)
      · intro hw
        rfl
      · intro t0 ht0 w hgw
        rw [ht] at ht0
        injection ht0 with ht0
        subst ht0
        exact hgw
      · intro t0 ht0 w hmw
        rw [ht] at ht0
        injection ht0 with ht0
        subst ht0
        exact mem_sadd.mpr (Or.inl hmw)

theorem invA_stepA (op : OpA) (s : StateA) (h : InvA s) (hv : ValidOpA op) :
    InvA (stepA op s) := by
  cases op with
  | join ws tourId userId role => exact invA_joinTourA s ws tourId userId role h hv
  | leave ws => exact (invA_leaveTourA s ws h).1
  | disconnect ws => exact (invA_leaveTourA s ws h).1

theorem invA_foldl (ops : List OpA) (s : StateA) (h : InvA s)
    (hv : ∀ op ∈ ops, ValidOpA op) :
    InvA (ops.foldl (fun s op => stepA op s) s) := by
  induction ops generalizing s with
  | nil => exact h
  | cons op rest ih =>
    simp only [List.foldl_cons]
    exact ih _ (invA_stepA op s h (hv op (by simp))) (fun o ho => hv o (by simp [ho]))

/-- Every state reachable by join/leave/disconnect operations whose roles
are among the recognized strings satisfies the registry invariant. -/
theorem invA_runA (ops : List OpA) (hv : ∀ op ∈ ops, ValidOpA op) : InvA (runA ops) :=
  invA_foldl ops initA invA_initA hv

/-! ## Claim theorems -/

/-- Claim C5 counterexample: the claim fails as stated.  A single
`join-tour` whose role string is neither `guide` nor `participant`
(here `spectator`) creates the target tour, binds the handle, and leaves
the tour in the registry with an empty guide slot and an empty participant
table. -/
theorem joinA_weird_role_empty_tour_counterexample :
    aget (runA [OpA.join 1 (some "t") (some "u") (some "spectator")]).tours (some "t") =
      some ⟨none, []⟩ := by
  decide

/-- Claim C5 (amended): restricted to operation sequences whose `join-tour`
roles are the recognized strings `guide`/`participant`, no reachable
variant-A state keeps a tour with an empty guide slot and an empty
participant table in the Tour Registry: the operation that empties a tour
deletes it synchronously. -/
theorem runA_no_empty_tour (ops : List OpA) (hv : ∀ op ∈ ops, ValidOpA op) :
    ∀ tid t, aget (runA ops).tours tid = some t →
      ¬(t.guide = none ∧ t.participants = []) :=
  (invA_runA ops hv).1

theorem runA_no_empty_tour_witness :
    (∀ op ∈ [OpA.join 1 (some "t") (some "g") (some "guide")], ValidOpA op) ∧
    ¬((⟨some 1, []⟩ : TourA).guide = none ∧ (⟨some 1, []⟩ : TourA).participants = []) :=
  ⟨by decide,
   runA_no_empty_tour [OpA.join 1 (some "t") (some "g") (some "guide")] (by decide)
     (some "t") ⟨some 1, []⟩ (by decide)⟩

def sC7 : StateB :=
  joinTourB 2 (some "t") (some "p") (some "participant")
    (joinTourB 1 (some "t") (some "g") (some "guide") initB)

/-- Claim C7 counterexample: in variant B the claim fails.  After guide
`g` (handle 1) and participant `p` (handle 2) join tour `t`, the guide's
disconnect deletes the tour while participant 2 stays bound to the now
deleted tour id, and participant 2's own subsequent leave/disconnect
returns early without removing its Connection Registry entry. -/
theorem leaveB_dangling_counterexample :
    aget (leaveTourB 1 sC7).connections 2 = some ⟨some "p", some "t"⟩ ∧
    aget (leaveTourB 1 sC7).tours (some "t") = none ∧
    aget (leaveTourB 2 (leaveTourB 1 sC7)).connections 2 = some ⟨some "p", some "t"⟩ := by
  decide

/-- Claim C7 (amended): in variant A, under operation sequences whose join
roles are the recognized strings, every Connection Registry entry names a
tourId that is present in the Tour Registry, and leave/disconnect always
leaves the handle unbound. -/
theorem runA_connections_consistent (ops : List OpA) (hv : ∀ op ∈ ops, ValidOpA op) :
    (∀ ws c, aget (runA ops).connections ws = some c →
      (aget (runA ops).tours c.tourId).isSome) ∧
    (∀ ws, aget (leaveTourA ws (runA ops)).connections ws = none) := by
  have hinv := invA_runA ops hv
  constructor
  · intro ws c hc
    obtain ⟨t, ht, -⟩ := hinv.2.1 ws c hc
    rw [ht]
    rfl
  · intro ws
    exact (invA_leaveTourA (runA ops) ws hinv).2

theorem runA_connections_consistent_witness :
    (∀ op ∈ [OpA.join 1 (some "t") (some "g") (some "guide")], ValidOpA op) ∧
    (aget (runA [OpA.join 1 (some "t") (some "g") (some "guide")]).tours (some "t")).isSome ∧
    aget (leaveTourA 1 (runA [OpA.join 1 (some "t") (some "g") (some "guide")])).connections 1
      = none := by
  refine ⟨by decide, ?_, ?_⟩
  · exact (runA_connections_consistent [OpA.join 1 (some "t") (some "g") (some "guide")]
      (by decide)).1 1 ⟨some "g", some "t", some "guide"⟩ (by decide)
  · exact (runA_connections_consistent [OpA.join 1 (some "t") (some "g") (some "guide")]
      (by decide)).2 1

def opsC1pre : List OpA :=
  [OpA.join 1 (some "t") (some "g") (some "guide"),
   OpA.join 2 (some "t") (some "p") (some "participant")]

def opsC1post : List OpA :=
  opsC1pre ++ [OpA.join 2 (some "t") (some "p") (some "guide")]

/-- Claim C1 counterexample: the rejection itself happens (error frame,
joiner left unbound, guide slot unchanged), but the tour is NOT left
entirely unchanged: because `joinTour` runs `leaveTour` unconditionally
first, a participant of the tour who re-joins as guide is removed from the
participant table before the rejection ([2] before, [] after). -/
theorem joinA_reject_changes_participants_counterexample :
    aget (runA opsC1pre).tours (some "t") = some ⟨some 1, [2]⟩ ∧
    aget (runA opsC1post).tours (some "t") = some ⟨some 1, []⟩ ∧
    (2, FrameA.error "Tour already has a guide") ∈ (runA opsC1post).log ∧
    aget (runA opsC1post).connections 2 = none := by
  decide

/-- Claim C1 (amended): (1) in any reachable variant-A state with
recognized roles, at most one connection is bound as guide of a given tour;
(2) a `join-tour` with role `guide` on a tour that already has a guide, by
a handle not currently bound to that tour, is rejected with the policy
error frame, leaves the joining handle unbound, and leaves the tour record
(guide slot and participant table) unchanged.  (If the joining handle was
bound to that tour, the unconditional leave preamble removes it from the
tour first; the rejection path itself still changes nothing.) -/
theorem joinA_second_guide_rejected :
    (∀ ops : List OpA, (∀ op ∈ ops, ValidOpA op) →
      ∀ w1 w2 c1 c2, aget (runA ops).connections w1 = some c1 →
        aget (runA ops).connections w2 = some c2 → c1.role = some "guide" →
        c2.role = some "guide" → c1.tourId = c2.tourId → w1 = w2) ∧
    (∀ (s : StateA) (ws : Nat) (tourId userId : OStr) (t : TourA) (g : Nat),
      aget s.tours tourId = some t → t.guide = some g →
      (∀ c, aget s.connections ws = some c → c.tourId ≠ tourId) →
      aget (joinTourA ws tourId userId (some "guide") s).tours tourId = some t ∧
      aget (joinTourA ws tourId userId (some "guide") s).connections ws = none ∧
      (ws, FrameA.error "Tour already has a guide") ∈
        (joinTourA ws tourId userId (some "guide") s).log) := by
  constructor
  · intro ops hv w1 w2 c1 c2 h1 h2 hr1 hr2 htid
    obtain ⟨-, hbc, -⟩ := invA_runA ops hv
    obtain ⟨t1, ht1, hx1⟩ := hbc w1 c1 h1
    obtain ⟨t2, ht2, hx2⟩ := hbc w2 c2 h2
    rcases hx1 with ⟨-, hg1⟩ | ⟨hp1, -⟩
    · rcases hx2 with ⟨-, hg2⟩ | ⟨hp2, -⟩
      · rw [htid] at ht1
        rw [ht1] at ht2
        injection ht2 with ht2
        subst ht2
        rw [hg1] at hg2
        exact Option.some.inj hg2
      · rw [hr2] at hp2
        simp at hp2
    · rw [hr1] at hp1
      simp at hp1
  · intro s ws tourId userId t g ht hg hno
    have h0t : aget (leaveTourA ws s).tours tourId = some t := by
      rw [leaveTourA_tours_other s ws tourId (fun c hc => (hno c hc).symm)]
      exact ht
    rw [joinTourA_guide_reject h0t hg]
    refine ⟨h0t, aget_adel_self _ _, ?_⟩
    simp

def sC1w : StateA := runA [OpA.join 1 (some "t") (some "g") (some "guide")]

theorem joinA_second_guide_rejected_witness :
    (1 : Nat) = 1 ∧
    (aget (joinTourA 2 (some "t") (some "p") (some "guide") sC1w).tours (some "t") =
        some ⟨some 1, []⟩ ∧
      aget (joinTourA 2 (some "t") (some "p") (some "guide") sC1w).connections 2 = none ∧
      (2, FrameA.error "Tour already has a guide") ∈
        (joinTourA 2 (some "t") (some "p") (some "guide") sC1w).log) := by
  constructor
  · exact joinA_second_guide_rejected.1 [OpA.join 1 (some "t") (some "g") (some "guide")]
      (by decide) 1 1 ⟨some "g", some "t", some "guide"⟩ ⟨some "g", some "t", some "guide"⟩
      (by decide) (by decide) rfl rfl rfl
  · refine joinA_second_guide_rejected.2 sC1w 2 (some "t") (some "p") ⟨some 1, []⟩ 1
      (by decide) rfl ?_
    intro c hc
    have h2 : aget sC1w.connections 2 = none := by decide
    rw [h2] at hc
    exact absurd hc (by simp)

/-- Claim C4: a broadcast-mode `offer` (no `targetId`) from a connection
bound as guide is delivered to exactly the participant set of the guide's
tour minus the sender, and (by the registry invariant) none of those
recipients is the guide or a participant of any other tour. -/
theorem relayA_broadcast_exact (ops : List OpA) (hv : ∀ op ∈ ops, ValidOpA op)
    (sws : Nat) (c : ConnInfoA) (t : TourA) (data : ClientData)
    (hc : aget (runA ops).connections sws = some c) (hr : c.role = some "guide")
    (ht : aget (runA ops).tours c.tourId = some t)
    (htype : data.type = some "offer") (htarget : data.targetId = none) :
    (handleMessageA sws data (runA ops)).log =
      (runA ops).log ++ (t.participants.filter (· ≠ sws)).map
        (fun p => (p, FrameA.relayed data data.fromId (some "guide"))) ∧
    (∀ p, p ∈ t.participants → p ≠ sws →
      ∀ tid' t', tid' ≠ c.tourId → aget (runA ops).tours tid' = some t' →
        t'.guide ≠ some p ∧ p ∉ t'.participants) := by
  constructor
  · have hred : handleMessageA sws data (runA ops) =
        relayToParticipantsA c.tourId data sws (runA ops) := by
      simp [handleMessageA, htype, hc]
    rw [hred]
    simp [relayToParticipantsA, ht, hc, hr]
  · obtain ⟨-, -, htc⟩ := invA_runA ops hv
    intro p hp hpw tid' t' htid' ht'
    obtain ⟨-, hpa⟩ := htc c.tourId t ht
    obtain ⟨u, hu⟩ := hpa p hp
    obtain ⟨hgu', hpa'⟩ := htc tid' t' ht'
    constructor
    · intro hg'
      obtain ⟨u', hu'⟩ := hgu' p hg'
      rw [hu] at hu'
      injection hu' with hu'
      have hct := congrArg ConnInfoA.tourId hu'
      exact htid' hct.symm
    · intro hp'
      obtain ⟨u', hu'⟩ := hpa' p hp'
      rw [hu] at hu'
      injection hu' with hu'
      have hct := congrArg ConnInfoA.tourId hu'
      exact htid' hct.symm

def opsC4 : List OpA :=
  [OpA.join 1 (some "t") (some "g") (some "guide"),
   OpA.join 2 (some "t") (some "p1") (some "participant"),
   OpA.join 3 (some "t") (some "p2") (some "participant"),
   OpA.join 4 (some "u") (some "q") (some "guide")]

def dataC4 : ClientData := ⟨some "offer", some "t", none, none, none, none, none, some "sdp"⟩

theorem relayA_broadcast_exact_witness :
    (∀ op ∈ opsC4, ValidOpA op) ∧
    (handleMessageA 1 dataC4 (runA opsC4)).log =
      (runA opsC4).log ++ (((⟨some 1, [2, 3]⟩ : TourA).participants.filter (· ≠ 1)).map
        (fun p => (p, FrameA.relayed dataC4 dataC4.fromId (some "guide")))) :=
  ⟨by decide, (relayA_broadcast_exact opsC4 (by decide) 1 ⟨some "g", some "t", some "guide"⟩
      ⟨some 1, [2, 3]⟩ dataC4 (by decide) rfl (by decide) rfl rfl).1⟩

def opsC9 : List OpA :=
  [OpA.join 1 (some "t") (some "g") (some "guide"),
   OpA.join 2 (some "t") (some "p1") (some "participant"),
   OpA.join 3 (some "t") (some "p2") (some "participant"),
   OpA.join 4 (some "t") (some "p3") (some "participant")]

def dataC9 : ClientData := ⟨some "offer", some "t", none, none, none, none, none, some "sdp"⟩

/-- Claim C9 counterexample: a guide broadcast over three participants
attempts a `send` to every one of them, but mutates neither registry: even
if one of those sends fails at the transport (the code discards the result
of every `send`), the failing target — say participant 2 — is still bound
and still in the participant table after the relay.  No disconnect happens
inside the relay operation. -/
theorem relayA_no_reap_counterexample :
    (handleMessageA 1 dataC9 (runA opsC9)).tours = (runA opsC9).tours ∧
    (handleMessageA 1 dataC9 (runA opsC9)).connections = (runA opsC9).connections ∧
    (handleMessageA 1 dataC9 (runA opsC9)).log = (runA opsC9).log ++
      [(2, FrameA.relayed dataC9 none (some "guide")),
       (3, FrameA.relayed dataC9 none (some "guide")),
       (4, FrameA.relayed dataC9 none (some "guide"))] ∧
    aget (handleMessageA 1 dataC9 (runA opsC9)).connections 2 =
      some ⟨some "p1", some "t", some "participant"⟩ := by
  decide

/-- Claim C9 (amended): a relay fan-out attempts delivery to every
non-sender participant unconditionally — the result of each `send` is
discarded, so one target's failure cannot stop the others — and the relay
never mutates the Tour or Connection Registry: a failing target is NOT
disconnected during the relay (cleanup happens only through the transport
close notification). -/
theorem relayA_ignores_send_results :
    (∀ (tourId : OStr) (data : ClientData) (sws : Nat) (s : StateA),
      (relayToParticipantsA tourId data sws s).tours = s.tours ∧
      (relayToParticipantsA tourId data sws s).connections = s.connections) ∧
    (∀ (tourId : OStr) (data : ClientData) (sws : Nat) (s : StateA) (t : TourA)
        (c : ConnInfoA),
      aget s.tours tourId = some t → aget s.connections sws = some c →
      c.role = some "guide" →
      (relayToParticipantsA tourId data sws s).log =
        s.log ++ (t.participants.filter (· ≠ sws)).map
          (fun p => (p, FrameA.relayed data data.fromId (some "guide")))) := by
  constructor
  · intro tourId data sws s
    cases ht : aget s.tours tourId with
    | none => simp [relayToParticipantsA, ht]
    | some tour =>
      cases hc : aget s.connections sws with
      | none => simp [relayToParticipantsA, ht, hc]
      | some sc =>
        by_cases h : sc.role = some "guide" <;> simp [relayToParticipantsA, ht, hc, h]
  · intro tourId data sws s t c ht hc hr
    simp [relayToParticipantsA, ht, hc, hr]

theorem relayA_ignores_send_results_witness :
    ((relayToParticipantsA (some "t") dataC9 1 (runA opsC9)).tours = (runA opsC9).tours ∧
      (relayToParticipantsA (some "t") dataC9 1 (runA opsC9)).connections =
        (runA opsC9).connections) ∧
    (relayToParticipantsA (some "t") dataC9 1 (runA opsC9)).log =
      (runA opsC9).log ++ (((⟨some 1, [2, 3, 4]⟩ : TourA).participants.filter (· ≠ 1)).map
        (fun p => (p, FrameA.relayed dataC9 dataC9.fromId (some "guide")))) :=
  ⟨relayA_ignores_send_results.1 (some "t") dataC9 1 (runA opsC9),
   relayA_ignores_send_results.2 (some "t") dataC9 1 (runA opsC9) ⟨some 1, [2, 3, 4]⟩
     ⟨some "g", some "t", some "guide"⟩ (by decide) (by decide) rfl⟩

/-- Claim C10: a `join-tour` whose role is neither `guide` nor
`participant`, from a fresh (unbound) handle, still leaves the target tour
record as it was (creating it empty if absent — in particular the handle is
added neither to the guide slot nor to the participant table), binds the
handle in the Connection Registry with the unrecognized role string, and
answers with a `joined-tour` frame rather than an error. -/
theorem joinA_unknown_role (s : StateA) (ws : Nat) (tourId userId role : OStr)
    (hr1 : role ≠ some "guide") (hr2 : role ≠ some "participant")
    (hws : aget s.connections ws = none) :
    aget (joinTourA ws tourId userId role s).tours tourId =
      some ((aget s.tours tourId).getD ⟨none, []⟩) ∧
    aget (joinTourA ws tourId userId role s).connections ws = some ⟨userId, tourId, role⟩ ∧
    (joinTourA ws tourId userId role s).log = s.log ++
      [(ws, FrameA.joinedTour tourId role
        ((aget s.tours tourId).getD ⟨none, []⟩).participants.length
        ((aget s.tours tourId).getD ⟨none, []⟩).guide.isSome)] := by
  rw [joinTourA_other hr1 hr2, leaveTourA_unbound hws]
  cases ht : aget s.tours tourId with
  | none => simp [ht, aget_aset_self]
  | some t => simp [ht, aget_aset_self]

def sC10w : StateA := runA [OpA.join 1 (some "t") (some "g") (some "guide")]

theorem joinA_unknown_role_witness :
    ((some "spectator" : OStr) ≠ some "guide" ∧
      (some "spectator" : OStr) ≠ some "participant" ∧
      aget sC10w.connections 2 = none) ∧
    (aget (joinTourA 2 (some "t") (some "u") (some "spectator") sC10w).tours (some "t") =
        some ((aget sC10w.tours (some "t")).getD ⟨none, []⟩) ∧
      aget (joinTourA 2 (some "t") (some "u") (some "spectator") sC10w).connections 2 =
        some ⟨some "u", some "t", some "spectator"⟩ ∧
      (joinTourA 2 (some "t") (some "u") (some "spectator") sC10w).log = sC10w.log ++
        [(2, FrameA.joinedTour (some "t") (some "spectator")
          ((aget sC10w.tours (some "t")).getD ⟨none, []⟩).participants.length
          ((aget sC10w.tours (some "t")).getD ⟨none, []⟩).guide.isSome)]) :=
  ⟨⟨by decide, by decide, by decide⟩,
   joinA_unknown_role sC10w 2 (some "t") (some "u") (some "spectator")
     (by decide) (by decide) (by decide)⟩

/-- Claim C2: in variant B (the reference design for guide departure), when
the bound identity of a handle is the current guide of its tour — the guide
slot's userId equals the connection's userId — `leaveTour` sends
`guide-left` to every participant connection of the tour, deletes the whole
tour from the Tour Registry immediately (participants may well remain in
it), and removes the handle's Connection Registry entry. -/
theorem leaveB_guide_deletes_tour (s : StateB) (ws : Nat) (c : ConnInfoB) (t : TourB)
    (g : Nat × OStr) (hc : aget s.connections ws = some c)
    (ht : aget s.tours c.tourId = some t) (hg : t.guide = some g) (hu : g.2 = c.userId) :
    leaveTourB ws s =
      { tours := adel s.tours c.tourId,
        connections := adel s.connections ws,
        log := s.log ++ t.participants.map (fun e => (e.2, FrameB.guideLeft)) } := by
  simp [leaveTourB, hc, ht, hg, hu]

def sC2 : StateB :=
  joinTourB 2 (some "t") (some "p") (some "participant")
    (joinTourB 1 (some "t") (some "g") (some "guide") initB)

theorem leaveB_guide_deletes_tour_witness :
    aget sC2.connections 1 = some ⟨some "g", some "t"⟩ ∧
    leaveTourB 1 sC2 =
      { tours := adel sC2.tours (some "t"),
        connections := adel sC2.connections 1,
        log := sC2.log ++ [(2, FrameB.guideLeft)] } := by
  refine ⟨by decide, ?_⟩
  have h := leaveB_guide_deletes_tour sC2 1 ⟨some "g", some "t"⟩
    ⟨some (1, some "g"), [(some "p", 2)]⟩ (1, some "g") (by decide) (by decide) rfl rfl
  simpa using h

def sC3x : StateB :=
  joinTourB 3 (some "t2") (some "u3") (some "participant")
    (joinTourB 2 (some "t2") (some "u2") (some "guide")
      (joinTourB 1 (some "t1") (some "u1") (some "guide") initB))

def dataC3x : ClientData :=
  ⟨some "offer", some "t2", none, none, some "u3", none, none, some "sdp"⟩

/-- Claim C3 counterexample: variant B resolves the relay tour from the
message's own `tourId` field, not from the sender's registry binding.
Handle 1 is bound to tour `t1` (as `u1`), yet its offer naming tour `t2`
with target `u3` is delivered to handle 3 — a member of `t2`, not of the
sender's own tour `t1`, whose record (guide `u1`, no participants) contains
no identity `u3` at all. -/
theorem relayB_cross_tour_counterexample :
    aget sC3x.connections 1 = some ⟨some "u1", some "t1"⟩ ∧
    (wsMessageB 1 dataC3x sC3x).log =
      sC3x.log ++ [(3, FrameB.relayed dataC3x (some "u1") none)] ∧
    aget sC3x.tours (some "t1") = some ⟨some (1, some "u1"), []⟩ ∧
    aget sC3x.connections 3 = some ⟨some "u3", some "t2"⟩ := by
  decide

/-- Claim C3 (amended): for a bound sender whose relay message carries a
`targetId` and a `tourId` naming the sender's own tour, the message is
delivered to exactly the connection that tour's records associate with the
target identity — the guide slot if its userId matches, else the
participant-table entry — and to no other connection; if the identity
resolves to no member of that tour, nothing is delivered and the state is
unchanged. -/
theorem relayB_targeted_delivery (s : StateB) (sws : Nat) (ci : ConnInfoB)
    (data : ClientData) (t : TourB) (X : String)
    (hci : aget s.connections sws = some ci)
    (htype : data.type = some "offer" ∨ data.type = some "answer" ∨
             data.type = some "ice-candidate")
    (htour : data.tourId = ci.tourId)
    (ht : aget s.tours ci.tourId = some t)
    (htarget : data.targetId = some X) :
    (∀ tws, resolveTargetB t data.targetId = some tws →
      (wsMessageB sws data s).log =
        s.log ++ [(tws, FrameB.relayed data ci.userId data.fromRole)] ∧
      (wsMessageB sws data s).tours = s.tours ∧
      (wsMessageB sws data s).connections = s.connections) ∧
    (resolveTargetB t data.targetId = none → wsMessageB sws data s = s) := by
  have hred : wsMessageB sws data s = relayB ci.userId data.tourId data s := by
    rcases htype with h | h | h <;> simp [wsMessageB, hci, handleMessageB, h]
  rw [hred, htour]
  constructor
  · intro tws htws
    simp [relayB, ht, htws]
  · intro hnone
    simp [relayB, ht, hnone]

def sC3w : StateB :=
  joinTourB 2 (some "t") (some "p") (some "participant")
    (joinTourB 1 (some "t") (some "g") (some "guide") initB)

def dataC3w : ClientData :=
  ⟨some "offer", some "t", none, none, some "p", none, none, some "sdp"⟩

theorem relayB_targeted_delivery_witness :
    resolveTargetB ⟨some (1, some "g"), [(some "p", 2)]⟩ (some "p") = some 2 ∧
    ((wsMessageB 1 dataC3w sC3w).log =
        sC3w.log ++ [(2, FrameB.relayed dataC3w (some "g") none)] ∧
      (wsMessageB 1 dataC3w sC3w).tours = sC3w.tours ∧
      (wsMessageB 1 dataC3w sC3w).connections = sC3w.connections) := by
  refine ⟨by decide, ?_⟩
  have h := (relayB_targeted_delivery sC3w 1 ⟨some "g", some "t"⟩ dataC3w
    ⟨some (1, some "g"), [(some "p", 2)]⟩ "p" (by decide) (Or.inl rfl) rfl (by decide)
    rfl).1 2 (by decide)
  simpa using h

def sC8 : StateB :=
  joinTourB 2 (some "t") (some "p") (some "participant")
    (joinTourB 1 (some "t") (some "g") (some "guide") initB)

def dataC8 : ClientData :=
  ⟨some "offer", some "t", none, none, some "p", some "evil", none, some "sdp"⟩

def dataC8w : ClientData :=
  ⟨some "offer", some "t", none, none, some "p", some "evil", some "bogus", some "sdp"⟩

/-- Claim C8 counterexample: in variant B a targeted offer from the guide
to participant `p` is delivered with `fromId` overridden to the sender's
registry identity `g` (the client-spoofed `fromId = "evil"` does not
survive), but with NO `fromRole` annotation at all: the delivered envelope
carries `fromRole = none`, refuting that every relayed envelope is
annotated with both fields. -/
theorem relayB_missing_fromRole_counterexample :
    (wsMessageB 1 dataC8 sC8).log =
      sC8.log ++ [(2, FrameB.relayed dataC8 (some "g") none)] ∧
    dataC8.fromId = some "evil" := by
  decide

/-- Claim C8 (amended): variant B's relay annotates delivered envelopes
with `fromId` taken from the sender's registry identity (overriding any
client-supplied `fromId`) but leaves `fromRole` exactly as the client
supplied it; variant A's `relayToParticipants` annotates `fromRole`
(the constant `guide`, justified by the registry role check) but passes the
client-supplied `fromId` through.  Neither variant annotates both fields
from the registry. -/
theorem relay_annotation_fields :
    (∀ (s : StateB) (sws : Nat) (ci : ConnInfoB) (data : ClientData) (t : TourB)
        (tws : Nat),
      aget s.connections sws = some ci → data.type = some "offer" →
      aget s.tours data.tourId = some t →
      resolveTargetB t data.targetId = some tws →
      (wsMessageB sws data s).log =
        s.log ++ [(tws, FrameB.relayed data ci.userId data.fromRole)]) ∧
    (∀ (tourId : OStr) (data : ClientData) (sws : Nat) (s : StateA) (t : TourA)
        (c : ConnInfoA),
      aget s.tours tourId = some t → aget s.connections sws = some c →
      c.role = some "guide" →
      (relayToParticipantsA tourId data sws s).log =
        s.log ++ (t.participants.filter (· ≠ sws)).map
          (fun p => (p, FrameA.relayed data data.fromId (some "guide")))) := by
  constructor
  · intro s sws ci data t tws hci htype ht htws
    have hred : wsMessageB sws data s = relayB ci.userId data.tourId data s := by
      simp [wsMessageB, hci, handleMessageB, htype]
    rw [hred]
    simp [relayB, ht, htws]
  · intro tourId data sws s t c ht hc hr
    simp [relayToParticipantsA, ht, hc, hr]

theorem relay_annotation_fields_witness :
    ((wsMessageB 1 dataC8w sC8).log =
      sC8.log ++ [(2, FrameB.relayed dataC8w (some "g") (some "bogus"))]) ∧
    ((relayToParticipantsA (some "t") dataC8w 1 (runA opsC4)).log =
      (runA opsC4).log ++ (((⟨some 1, [2, 3]⟩ : TourA).participants.filter (· ≠ 1)).map
        (fun p => (p, FrameA.relayed dataC8w dataC8w.fromId (some "guide"))))) := by
  constructor
  · have h := relay_annotation_fields.1 sC8 1 ⟨some "g", some "t"⟩ dataC8w
      ⟨some (1, some "g"), [(some "p", 2)]⟩ 2 (by decide) rfl (by decide) (by decide)
    simpa using h
  · exact relay_annotation_fields.2 (some "t") dataC8w 1 (runA opsC4)
      ⟨some 1, [2, 3]⟩ ⟨some "g", some "t", some "guide"⟩ (by decide) (by decide) rfl

def joinMsgC6 : ClientData :=
  ⟨some "join-tour", some "alps", some "g1", some "guide", none, none, none, none⟩

/-- Claim C6 (code bug in variant B): the `websocket.message` handler only
dispatches when the sending connection already has a registry entry, so the
first `join-tour` from a fresh handle is silently dropped — no identity
record is created, no tour is created, no reply is sent — even though the
`joinTour` operation itself, had it been reached, would have bound the
handle and created the tour (second and third conjuncts). -/
theorem wsMessageB_drops_first_join :
    wsMessageB 1 joinMsgC6 initB = initB ∧
    aget (joinTourB 1 (some "alps") (some "g1") (some "guide") initB).connections 1 =
      some ⟨some "g1", some "alps"⟩ ∧
    aget (joinTourB 1 (some "alps") (some "g1") (some "guide") initB).tours (some "alps") =
      some ⟨some (1, some "g1"), []⟩ := by
  decide
